import Mathlib

/-!
Verification of the job-distribution and resumable-execution subsystem of the
`automated-seo` repository, as a shallow embedding in Lean 4.

The embedded code:
* `src/azure/worker.py`    — `ScraperWorker.run` / `upload_result` (cloud worker loop)
* `src/azure/queue_jobs.py` — `main` (job producer for the Azure queue)
* `src/youtube_bulk_scraper.py` — `BulkYouTubeScraper` (local thread-pool variant:
  `process_video`, `_save_video`, `_save_state`, `collect_video_urls`)
* `src/scraper/client.py`  — `DiscourseClient.get` / `_rate_limit_wait`
* `src/scraper/scraper.py` — `DevForumScraper._save_state`

External effects (HTTP calls, the transcript API, wall-clock time, raised
exceptions) are modelled as explicit data: oracles passed as arguments, outcome
flags, and rational-number clocks.  Raised exceptions become outcome values so
that control flow around `try`/`except` is explicit.
-/

/-! ### Azure worker: one iteration of the message loop

`ScraperWorker.run` (worker.py lines 137-182).  Inside the inner `try`
(lines 150-170) the stages are, in source order:
`json.loads(message.content)` (parse), `process_job` (process),
`upload_result` (sink write), `queue_client.delete_message` (ack).
Any of these may raise; the `except Exception` on line 168 catches the raise,
increments `self.errors` and the loop continues with the next message.
An `IterOutcome` records, for one leased message, which stages would succeed
if reached. -/
structure IterOutcome where
  parseOk : Bool
  processOk : Bool
  uploadOk : Bool
  ackOk : Bool
deriving DecidableEq

/-- Observable events of one iteration of the worker's inner loop. -/
inductive WEvent
  | parsed
  | processed
  | uploaded
  | acked
  | caught
deriving DecidableEq, BEq

/-- The event trace of one iteration of `ScraperWorker.run`'s inner loop
(worker.py lines 150-170): stages run in source order, the first raising stage
transfers control to the `except Exception` handler (event `caught`), and no
later stage runs in that iteration. -/
def iterEvents (o : IterOutcome) : List WEvent :=
  if !o.parseOk then [WEvent.caught]
  else if !o.processOk then [WEvent.parsed, WEvent.caught]
  else if !o.uploadOk then [WEvent.parsed, WEvent.processed, WEvent.caught]
  else if !o.ackOk then [WEvent.parsed, WEvent.processed, WEvent.uploaded, WEvent.caught]
  else [WEvent.parsed, WEvent.processed, WEvent.uploaded, WEvent.acked]

/-- The queue after one iteration on message `m` against queue `q`:
`delete_message` (worker.py line 158) removes `m` only when the iteration
reaches the ack stage and it succeeds; otherwise the message stays leased and
its lease is left to expire (no explicit release call exists in the worker). -/
def queueAfter (q : List String) (m : String) (o : IterOutcome) : List String :=
  if (iterEvents o).contains WEvent.acked then q.erase m else q

/-- Counters of `ScraperWorker`: `self.processed` and `self.errors`. -/
structure WorkerCounters where
  processed : Nat
  errors : Nat
deriving DecidableEq

/-- Whether the whole iteration succeeds (no stage raises). -/
def iterSuccess (o : IterOutcome) : Bool :=
  o.parseOk && o.processOk && o.uploadOk && o.ackOk

/-- Effect of one inner-loop iteration on the worker counters
(worker.py lines 160 and 169): `processed += 1` on full success,
`errors += 1` in the `except Exception` handler. -/
def handleMessage (c : WorkerCounters) (o : IterOutcome) : WorkerCounters :=
  if iterSuccess o then { c with processed := c.processed + 1 }
  else { c with errors := c.errors + 1 }

/-- The inner `for message in messages` loop of `ScraperWorker.run` over a
batch: every message is handled, a caught exception moves on to the next
message. -/
def runBatch (c : WorkerCounters) (os : List IterOutcome) : WorkerCounters :=
  os.foldl handleMessage c

/-! ### Key-overwrite stores (ResultSink backends)

`ScraperWorker.upload_result` (worker.py lines 121-130) uploads with
`overwrite=True` under a blob name derived only from the video id, and
`BulkYouTubeScraper._save_video` (youtube_bulk_scraper.py lines 252-259)
opens `videos/<id[:2]>/<id>.json` with mode `"w"`.  Both are key-overwrite
stores; we model a store as an association list where a put replaces every
earlier entry with the same key. -/
def storePut {β : Type} (store : List (String × β)) (key : String) (val : β) :
    List (String × β) :=
  (key, val) :: store.filter fun p => ¬ p.1 = key

/-- A key is present in the store. -/
def storeHasKey {β : Type} (store : List (String × β)) (key : String) : Prop :=
  ∃ p ∈ store, p.1 = key

instance {β : Type} (store : List (String × β)) (key : String) :
    Decidable (storeHasKey store key) :=
  List.decidableBEx _ store

/-- `blob_name` of `ScraperWorker.upload_result` (worker.py line 124):
derived only from the video id. -/
def blob_name (video_id : String) : String :=
  "videos/" ++ video_id.take 2 ++ "/" ++ video_id ++ ".json"

/-- A serialized worker result: the blob key depends only on `video_id`,
the JSON payload is opaque here. -/
structure AzureResult where
  video_id : String
  payload : String
deriving DecidableEq

/-- `ScraperWorker.upload_result` (worker.py lines 121-130): upload the
serialized result to the results container under `blob_name`, with
`overwrite=True`. -/
def upload_result (container : List (String × String)) (result : AzureResult) :
    List (String × String) :=
  storePut container (blob_name result.video_id) result.payload

/-! ### Local bulk scraper (`youtube_bulk_scraper.py`) -/

/-- The `VideoData` dataclass (youtube_bulk_scraper.py lines 119-130). -/
structure VideoData where
  id : String
  title : String
  channel : String
  views : Nat
  duration : String
  url : String
  query : String
  transcript : String
  scraped_at : String
  error : String
deriving DecidableEq

/-- A search-result record as consumed by `process_video` (the fields of the
yt-dlp JSON that the code reads). -/
structure VideoInfo where
  id : String
  title : String
  channel : String
  view_count : Nat
  duration_string : String
  query : String
deriving DecidableEq

/-- The scraper state dictionary created by `_load_state`
(youtube_bulk_scraper.py lines 142-153).  The wall-clock `started_at`
timestamp is abstracted as an opaque string. -/
structure ScraperState where
  scraped_ids : List String
  failed_ids : List String
  queries_completed : List String
  total_scraped : Nat
  total_with_transcript : Nat
  started_at : String
deriving DecidableEq

/-- In-memory environment of a `BulkYouTubeScraper` run: the per-video JSON
files written by `_save_video` (keyed by file path) and the state dict. -/
structure BulkEnv where
  files : List (String × VideoData)
  state : ScraperState
deriving DecidableEq

/-- File path used by `_save_video` (youtube_bulk_scraper.py lines 255-257). -/
def file_key (id : String) : String :=
  "videos/" ++ id.take 2 ++ "/" ++ id ++ ".json"

/-- The `VideoData` record built by `process_video`
(youtube_bulk_scraper.py lines 224-235); `scraped_at` (wall clock) is
abstracted as the empty string, which no embedded logic reads. -/
def mkVideoData (video_data : VideoInfo) (transcript error : String) : VideoData :=
  { id := video_data.id
    title := video_data.title
    channel := video_data.channel
    views := video_data.view_count
    duration := video_data.duration_string
    url := "https://www.youtube.com/watch?v=" ++ video_data.id
    query := video_data.query
    transcript := transcript
    scraped_at := ""
    error := error }

/-- Micro-operations of `process_video` against the two stores, in source
order: line 238 saves the per-video JSON file, lines 241-248 (under the lock)
append the id to `scraped_ids` and bump the counters. -/
inductive MicroOp
  | saveVideo (v : VideoData)
  | markScraped (id : String) (hasTranscript : Bool)
deriving DecidableEq

/-- Apply one micro-operation to the environment. -/
def applyOp (env : BulkEnv) : MicroOp → BulkEnv
  | MicroOp.saveVideo v =>
      { env with files := storePut env.files (file_key v.id) v }
  | MicroOp.markScraped id hasTranscript =>
      { env with state :=
          { env.state with
            scraped_ids := env.state.scraped_ids ++ [id]
            total_scraped := env.state.total_scraped + 1
            total_with_transcript :=
              env.state.total_with_transcript + (if hasTranscript then 1 else 0) } }

/-- Apply a list of micro-operations left to right. -/
def applyOps (env : BulkEnv) (ops : List MicroOp) : BulkEnv :=
  ops.foldl applyOp env

/-- The micro-operation trace of one `process_video` call
(youtube_bulk_scraper.py lines 203-250).  The id is read from the job record;
if it is already in `scraped_ids` the call returns immediately (lines
208-210) and performs no store operation.  Otherwise the transcript is
fetched (modelled by the `oracle`, returning the `(transcript, error)` pair
of `get_transcript`), the video file is saved, and only then is the id
appended to `scraped_ids` (line 242).  The per-worker rate-limit sleep
(lines 212-219) does not touch either store and is modelled separately with
the rate limiter. -/
def process_video_ops (oracle : String → String × String) (env : BulkEnv)
    (video_data : VideoInfo) : List MicroOp :=
  let video_id := video_data.id
  if video_id ∈ env.state.scraped_ids then []
  else
    let tr := (oracle video_id).1
    let err := (oracle video_id).2
    [MicroOp.saveVideo (mkVideoData video_data tr err),
     MicroOp.markScraped video_id (decide (tr ≠ ""))]

/-- `process_video`: returns the updated environment and, as in the source,
`None` for an already-scraped id and the built `VideoData` otherwise. -/
def process_video (oracle : String → String × String) (env : BulkEnv)
    (video_data : VideoInfo) : BulkEnv × Option VideoData :=
  (applyOps env (process_video_ops oracle env video_data),
   if video_data.id ∈ env.state.scraped_ids then none
   else some (mkVideoData video_data (oracle video_data.id).1 (oracle video_data.id).2))

/-- The sequential processing loop over a job list (the thread-pool `scrape`
loop, youtube_bulk_scraper.py lines 319-339, linearised): returns the final
environment and the list of ids for which the expensive transcript fetch was
actually invoked (already-scraped ids are skipped before any fetch). -/
def runJobs (oracle : String → String × String) (env : BulkEnv) :
    List VideoInfo → BulkEnv × List String
  | [] => (env, [])
  | vd :: rest =>
    let fetchedHere : List String :=
      if vd.id ∈ env.state.scraped_ids then [] else [vd.id]
    let env1 := (process_video oracle env vd).1
    let r := runJobs oracle env1 rest
    (r.1, fetchedHere ++ r.2)

/-- The full micro-operation trace of the processing loop over a job list. -/
def runTrace (oracle : String → String × String) (env : BulkEnv) :
    List VideoInfo → List MicroOp
  | [] => []
  | vd :: rest =>
    let ops := process_video_ops oracle env vd
    ops ++ runTrace oracle (applyOps env ops) rest

/-- A fresh environment over a loaded checkpoint whose processed-id set is
`scraped` (cf. `_load_state`, youtube_bulk_scraper.py lines 142-153). -/
def initialEnv (scraped : List String) : BulkEnv :=
  { files := []
    state :=
      { scraped_ids := scraped
        failed_ids := []
        queries_completed := []
        total_scraped := 0
        total_with_transcript := 0
        started_at := "" } }

/-- The §3 invariant relating the two stores: every id marked processed has a
sink entry (its per-video JSON file) or is recorded in `failed_ids`. -/
def SinkInv (env : BulkEnv) : Prop :=
  ∀ id ∈ env.state.scraped_ids,
    storeHasKey env.files (file_key id) ∨ id ∈ env.state.failed_ids

instance (env : BulkEnv) : Decidable (SinkInv env) :=
  List.decidableBAll _ env.state.scraped_ids

/-! ### Checkpoint flush (`_save_state`)

`BulkYouTubeScraper._save_state` (youtube_bulk_scraper.py lines 155-158) and
`DevForumScraper._save_state` (scraper/scraper.py lines 27-30) both execute
`open(state_file, "w")` followed by `json.dump(state, f)`.  At the file-system
level this is: truncate the file to empty, then append the serialized
snapshot in one or more write calls.  No temporary file and no rename are
involved.  A crash mid-flush is modelled as stopping after an arbitrary
prefix of these steps. -/
inductive FlushStep
  | truncate
  | writeChunk (s : String)
deriving DecidableEq

/-- The step sequence of one `_save_state` call whose serialized new snapshot
arrives in `chunks`: truncate on `open(..., "w")`, then the chunked writes of
`json.dump`. -/
def save_state_steps (chunks : List String) : List FlushStep :=
  FlushStep.truncate :: chunks.map FlushStep.writeChunk

/-- Replay flush steps against the on-disk file content. -/
def runFlushSteps (disk : String) : List FlushStep → String
  | [] => disk
  | FlushStep.truncate :: rest => runFlushSteps "" rest
  | FlushStep.writeChunk s :: rest => runFlushSteps (disk ++ s) rest

/-- Concatenation of the serialized snapshot's chunks: the full new snapshot. -/
def joinChunks : List String → String
  | [] => ""
  | c :: cs => c ++ joinChunks cs

/-! ### Retry loop (`DiscourseClient.get`, scraper/client.py lines 31-58) -/

/-- Outcome of one `self.session.get` call, as discriminated by the source:
HTTP 200 (parsed body returned), 429 (sleep `Retry-After`, next attempt),
404 (return `None`), any other status (log, next attempt), or a raised
`requests.RequestException` (log, backoff sleep, next attempt). -/
inductive HttpOutcome
  | status200 (body : String)
  | status429 (retry_after : Nat)
  | status404
  | statusOther (code : Nat)
  | requestException (msg : String)
deriving DecidableEq

/-- The `for attempt in range(self.max_retries)` loop of `DiscourseClient.get`
with `remaining` iterations left, the next one numbered `attempt`.
`responses` gives the outcome of the attempt-th HTTP call.  Returns the
parsed body (or `none`) together with the number of HTTP calls made; sleeps
(rate-limit wait, Retry-After, exponential backoff) do not affect either and
are modelled with the rate limiter. -/
def getFrom (responses : Nat → HttpOutcome) : Nat → Nat → Option String × Nat
  | _, 0 => (none, 0)
  | attempt, remaining + 1 =>
    match responses attempt with
    | HttpOutcome.status200 body => (some body, 1)
    | HttpOutcome.status429 _ =>
        let r := getFrom responses (attempt + 1) remaining
        (r.1, r.2 + 1)
    | HttpOutcome.status404 => (none, 1)
    | HttpOutcome.statusOther _ =>
        let r := getFrom responses (attempt + 1) remaining
        (r.1, r.2 + 1)
    | HttpOutcome.requestException _ =>
        let r := getFrom responses (attempt + 1) remaining
        (r.1, r.2 + 1)

/-- `DiscourseClient.get`: run the attempt loop from attempt 0 with
`max_retries` iterations; falling off the loop returns `None` (line 58). -/
def client_get (responses : Nat → HttpOutcome) (max_retries : Nat) :
    Option String × Nat :=
  getFrom responses 0 max_retries

/-! ### Rate limiter (`DiscourseClient._rate_limit_wait`, scraper/client.py
lines 26-29 and 35-36; the per-worker variant in `process_video`,
youtube_bulk_scraper.py lines 212-219, is the same computation keyed by
worker id).

Time is a rational number of seconds; `sleep(d)` advances `now` by exactly
`d`, and the scope's recorded timestamp is taken at the moment the permitted
operation starts. -/
structure RLState where
  now : ℚ
  last_request_time : ℚ
deriving DecidableEq

/-- `_rate_limit_wait`: if less than `rate_limit` has elapsed since
`_last_request_time`, sleep the difference. -/
def rate_limit_wait (rate_limit : ℚ) (s : RLState) : RLState :=
  let elapsed := s.now - s.last_request_time
  if elapsed < rate_limit then { s with now := s.now + (rate_limit - elapsed) } else s

/-- Line 36: `self._last_request_time = time.time()` right after the wait. -/
def record_request_time (s : RLState) : RLState :=
  { s with last_request_time := s.now }

/-- One wait-then-record cycle; its grant timestamp is the resulting `now`. -/
def grantOnce (rate_limit : ℚ) (s : RLState) : RLState :=
  record_request_time (rate_limit_wait rate_limit s)

/-- A sequence of waits on one scope: before the i-th call, `deltas[i]`
seconds of unrelated work elapse (any rational, so the model also covers a
non-monotone wall clock); each call then waits and records.  Returns the
grant timestamps in order. -/
def runWaits (rate_limit : ℚ) (s : RLState) : List ℚ → List ℚ
  | [] => []
  | δ :: δs =>
    let s1 := grantOnce rate_limit { s with now := s.now + δ }
    s1.now :: runWaits rate_limit s1 δs

/-! ### Local producer (`BulkYouTubeScraper.collect_video_urls`,
youtube_bulk_scraper.py lines 261-289) -/

/-- The inner `for v in videos` loop (lines 274-278): append a video and
remember its id iff the id is truthy (non-empty) and not seen before.
`seen_ids` starts as `set(self.state["scraped_ids"])` (line 264). -/
def addFoundVideos (seen : List String) (acc : List VideoInfo) :
    List VideoInfo → List String × List VideoInfo
  | [] => (seen, acc)
  | v :: rest =>
    if v.id ≠ "" ∧ v.id ∉ seen then
      addFoundVideos (seen ++ [v.id]) (acc ++ [v]) rest
    else addFoundVideos seen acc rest

/-- The outer `for query in queries` loop (lines 268-286): skip queries
already in `queries_completed`, search (the `search` oracle stands for
`search_videos`, which already applies the min-views filter), collect new
videos, mark the query completed, and break once the target is reached. -/
def collectLoop (search : String → List VideoInfo) (target : Nat) :
    List String → List String → List VideoInfo → List String → List VideoInfo
  | _, _, acc, [] => acc
  | completed, seen, acc, q :: rest =>
    if q ∈ completed then collectLoop search target completed seen acc rest
    else
      let p := addFoundVideos seen acc (search q)
      if target ≤ p.2.length then p.2
      else collectLoop search target (completed ++ [q]) p.1 p.2 rest

/-- `collect_video_urls`: run the collection loop from the loaded state and
return at most `target_count` videos (line 289: `all_videos[:target_count]`). -/
def collect_video_urls (state : ScraperState) (search : String → List VideoInfo)
    (queries : List String) (target_count : Nat) : List VideoInfo :=
  (collectLoop search target_count state.queries_completed state.scraped_ids
    [] queries).take target_count

/-! ### Azure producer (`queue_jobs.main`, azure/queue_jobs.py lines 163-188) -/

/-- A search result as built by `search_youtube` (queue_jobs.py lines
110-115): `video_id` is `data.get("id")` and may be `None`; `views` is
already normalised to a number (`video.get("views", 0) or 0`, line 177). -/
structure QVideo where
  video_id : Option String
  title : String
  views : Nat
  query : String
deriving DecidableEq

/-- A message sent by `queue_client.send_message` (queue_jobs.py lines
181-184).  The message body holds `video_id` and `query`; `views` is ghost
metadata recording the view count the send-filter saw. -/
structure SentMsg where
  video_id : String
  query : String
  views : Nat
deriving DecidableEq

/-- Producer loop state: `seen_ids`, the `queued` counter, and the ghost
trace of sent messages in order. -/
structure QState where
  seen_ids : List String
  queued : Nat
  sent : List SentMsg
deriving DecidableEq

/-- The inner `for video in videos` loop (queue_jobs.py lines 172-186):
break when the target count is reached; send a message iff the id is truthy,
unseen, and the view count meets the threshold; then record the id and bump
`queued`. -/
def sendVideosLoop (count min_views : Nat) (query : String) (s : QState) :
    List QVideo → QState
  | [] => s
  | v :: rest =>
    if count ≤ s.queued then s
    else
      match v.video_id with
      | none => sendVideosLoop count min_views query s rest
      | some vid =>
        if vid ≠ "" ∧ vid ∉ s.seen_ids ∧ min_views ≤ v.views then
          sendVideosLoop count min_views query
            { seen_ids := s.seen_ids ++ [vid]
              queued := s.queued + 1
              sent := s.sent ++ [⟨vid, query, v.views⟩] } rest
        else sendVideosLoop count min_views query s rest

/-- The outer `for query in all_queries` loop (queue_jobs.py lines 166-188):
break when the target is reached, otherwise search and run the send loop. -/
def queueJobsLoop (count min_views : Nat) (search : String → List QVideo) :
    QState → List String → QState
  | s, [] => s
  | s, q :: rest =>
    if count ≤ s.queued then s
    else queueJobsLoop count min_views search
      (sendVideosLoop count min_views q s (search q)) rest

/-- One run of `queue_jobs.main` from its empty `seen_ids = set()` and
`queued = 0` (queue_jobs.py lines 163-164). -/
def queueJobsMain (count min_views : Nat) (search : String → List QVideo)
    (all_queries : List String) : QState :=
  queueJobsLoop count min_views search ⟨[], 0, []⟩ all_queries

/-- A minimal job record carrying only the id (the other search-result fields
play no role in dedup or resumability). -/
def mkJob (id : String) : VideoInfo :=
  { id := id, title := "", channel := "", view_count := 0
    duration_string := "", query := "" }

/-- Invariant of the Azure producer loop state: the `queued` counter matches
the number of sent messages and stays within the target, every sent id was
recorded in `seen_ids`, sent ids are pairwise distinct, and every sent
message has a truthy id and passed the min-views filter. -/
def QInv (count min_views : Nat) (s : QState) : Prop :=
  s.queued = s.sent.length ∧
  s.queued ≤ count ∧
  (s.sent.map SentMsg.video_id).Nodup ∧
  ∀ m ∈ s.sent, m.video_id ∈ s.seen_ids ∧ m.video_id ≠ "" ∧ min_views ≤ m.views

/-! ## Theorems -/

/-- Puts preserve key presence in a key-overwrite store. -/
theorem storeHasKey_storePut {β : Type} (store : List (String × β))
    (k k0 : String) (v : β) (h : storeHasKey store k0) :
    storeHasKey (storePut store k v) k0 := by
  obtain ⟨p, hp, he⟩ := h
  by_cases hk : k0 = k
  · exact ⟨(k, v), List.mem_cons_self _ _, hk.symm⟩
  · exact ⟨p, List.mem_cons_of_mem _ (List.mem_filter.mpr ⟨hp, by simp [he, hk]⟩), he⟩

/-- A put makes its own key present. -/
theorem storeHasKey_storePut_self {β : Type} (store : List (String × β))
    (k : String) (v : β) : storeHasKey (storePut store k v) k :=
  ⟨(k, v), List.mem_cons_self _ _, rfl⟩

/-- After a put, the store holds exactly one entry under the put key. -/
theorem count_storePut_keys {β : Type} (store : List (String × β))
    (k : String) (v : β) : ((storePut store k v).map Prod.fst).count k = 1 := by
  have hzero : k ∉ (store.filter fun p => ¬ p.1 = k).map Prod.fst := by
    intro hmem
    obtain ⟨p, hp, he⟩ := List.mem_map.mp hmem
    have := (List.mem_filter.mp hp).2
    simp [he] at this
  show (((k, v) :: store.filter fun p => ¬ p.1 = k).map Prod.fst).count k = 1
  rw [List.map_cons, List.count_cons_self, List.count_eq_zero.mpr hzero]

/-- C1: in every iteration of `ScraperWorker.run`'s inner loop, the sink
write (`upload_result`, worker.py line 155) completes before the ack
(`delete_message`, line 158); if the sink write raises, control jumps to the
`except` handler, the ack is never reached, and the message stays in the
queue with its lease left to expire — so an ack without a written result
never occurs. -/
theorem worker_upload_before_ack (o : IterOutcome) :
    ((iterEvents o).contains WEvent.acked = true →
      (iterEvents o).contains WEvent.uploaded = true ∧
      (iterEvents o).indexOf WEvent.uploaded < (iterEvents o).indexOf WEvent.acked) ∧
    (o.uploadOk = false → ∀ q m, queueAfter q m o = q) := by
  have hkey : ((iterEvents o).contains WEvent.acked = true →
      (iterEvents o).contains WEvent.uploaded = true ∧
      (iterEvents o).indexOf WEvent.uploaded < (iterEvents o).indexOf WEvent.acked) ∧
      (o.uploadOk = false → (iterEvents o).contains WEvent.acked = false) := by
    obtain ⟨a, b, c, d⟩ := o
    revert a b c d
    decide
  refine ⟨hkey.1, fun h q m => ?_⟩
  unfold queueAfter
  rw [hkey.2 h]
  simp

/-- Witness for C1 at concrete iteration outcomes: an all-success iteration
uploads before acking, and an iteration whose sink write raises leaves the
queue unchanged. -/
theorem worker_upload_before_ack_witness :
    ((iterEvents ⟨true, true, true, true⟩).contains WEvent.uploaded = true ∧
      (iterEvents ⟨true, true, true, true⟩).indexOf WEvent.uploaded <
        (iterEvents ⟨true, true, true, true⟩).indexOf WEvent.acked) ∧
    queueAfter ["job-17"] "job-17" ⟨true, true, false, true⟩ = ["job-17"] :=
  ⟨(worker_upload_before_ack ⟨true, true, true, true⟩).1 (by decide),
   (worker_upload_before_ack ⟨true, true, false, true⟩).2 rfl ["job-17"] "job-17"⟩

/-- C9: a failing job never terminates the worker loop: when any stage of a
message's handling raises, the `except Exception` handler (worker.py lines
168-170) increments the error counter and the loop proceeds to process the
entire remainder of the batch — the exception does not propagate out of
`ScraperWorker.run`. -/
theorem worker_survives_job_failures (c : WorkerCounters) (pre post : List IterOutcome)
    (o : IterOutcome) (h : iterSuccess o = false) :
    runBatch c (pre ++ o :: post) =
      runBatch { runBatch c pre with errors := (runBatch c pre).errors + 1 } post := by
  unfold runBatch
  rw [List.foldl_append, List.foldl_cons]
  have : handleMessage (List.foldl handleMessage c pre) o =
      { List.foldl handleMessage c pre with
        errors := (List.foldl handleMessage c pre).errors + 1 } := by
    unfold handleMessage
    rw [h]
    simp
  rw [this]

/-- Witness for C9: a batch whose middle message raises is still fully
consumed, with the error counted and the following message processed. -/
theorem worker_survives_job_failures_witness :
    runBatch ⟨0, 0⟩ ([⟨true, true, true, true⟩] ++ ⟨true, true, false, true⟩ ::
        [⟨true, true, true, true⟩]) =
      runBatch { runBatch ⟨0, 0⟩ [⟨true, true, true, true⟩] with
        errors := (runBatch ⟨0, 0⟩ [⟨true, true, true, true⟩]).errors + 1 }
        [⟨true, true, true, true⟩] :=
  worker_survives_job_failures ⟨0, 0⟩ [⟨true, true, true, true⟩]
    [⟨true, true, true, true⟩] ⟨true, true, false, true⟩ (by decide)

/-- C4 counterexample: with `max_retries = 3` and an HTTP layer that raises a
transient `requests.RequestException` on every call, `DiscourseClient.get`
invokes the HTTP operation exactly 3 times — not `max_retries + 1 = 4` times
as claimed (`for attempt in range(self.max_retries)` runs `max_retries`
iterations, each making one call). -/
theorem retry_count_counterexample :
    (client_get (fun _ => HttpOutcome.requestException "timeout") 3).2 = 3 ∧
    ¬ (client_get (fun _ => HttpOutcome.requestException "timeout") 3).2 = 3 + 1 := by
  decide

/-- C4 amended: a processing operation that raises a transient failure on
every invocation is attempted exactly `max_retries` times (the loop header
`for attempt in range(self.max_retries)` bounds the total attempts, initial
attempt included), after which `get` returns the terminal empty result
`None` (client.py line 58) instead of propagating the exception. -/
theorem retry_exhaustion_returns_none (max_retries : Nat)
    (responses : Nat → HttpOutcome)
    (h : ∀ n, ∃ msg, responses n = HttpOutcome.requestException msg) :
    client_get responses max_retries = (none, max_retries) := by
  have aux : ∀ remaining attempt, getFrom responses attempt remaining = (none, remaining) := by
    intro remaining
    induction remaining with
    | zero => intro attempt; rfl
    | succ r ih =>
      intro attempt
      obtain ⟨msg, hm⟩ := h attempt
      simp [getFrom, hm, ih]
  exact aux max_retries 0

/-- Witness for the amended C4: an always-raising HTTP layer with
`max_retries = 3` yields `None` after exactly 3 calls. -/
theorem retry_exhaustion_returns_none_witness :
    client_get (fun _ => HttpOutcome.requestException "timeout") 3 = (none, 3) :=
  retry_exhaustion_returns_none 3 (fun _ => HttpOutcome.requestException "timeout")
    (fun _ => ⟨"timeout", rfl⟩)

/-- C3 counterexample: `_save_state` truncates the state file and writes the
new snapshot in place; interrupting the flush after the first write (old
snapshot "OLD", new snapshot arriving as chunks "NE" ++ "W") leaves "NE" on
disk — neither the previous snapshot nor the new one, refuting
crash-atomicity as claimed. -/
theorem flush_atomicity_counterexample :
    ¬ ∀ k : Nat,
      runFlushSteps "OLD" ((save_state_steps ["NE", "W"]).take k) = "OLD" ∨
      runFlushSteps "OLD" ((save_state_steps ["NE", "W"]).take k) = "NEW" := by
  intro h
  rcases h 2 with h2 | h2 <;> revert h2 <;> decide

/-- C3 amended: the checkpoint flush is not crash-atomic.  `_save_state`
(youtube_bulk_scraper.py lines 155-158, scraper/scraper.py lines 27-30)
opens the state file with mode "w" — truncating it — and writes the new
snapshot in place with no temporary file or atomic rename.  A flush that
runs to completion leaves exactly the new snapshot, but a process killed
right after the truncation leaves an empty file, which (for non-empty
snapshots) is neither the previous nor the new snapshot. -/
theorem flush_truncate_then_write (old : String) (chunks : List String)
    (hOld : old ≠ "") (hNew : joinChunks chunks ≠ "") :
    runFlushSteps old (save_state_steps chunks) = joinChunks chunks ∧
    runFlushSteps old ((save_state_steps chunks).take 1) ≠ old ∧
    runFlushSteps old ((save_state_steps chunks).take 1) ≠ joinChunks chunks := by
  have hwrites : ∀ (d : String) (cs : List String),
      runFlushSteps d (cs.map FlushStep.writeChunk) = d ++ joinChunks cs := by
    intro d cs
    induction cs generalizing d with
    | nil => simp [runFlushSteps, joinChunks]
    | cons c cs ih => simp [runFlushSteps, ih, joinChunks, String.append_assoc]
  refine ⟨?_, ?_, ?_⟩
  · show runFlushSteps old (FlushStep.truncate :: chunks.map FlushStep.writeChunk) =
      joinChunks chunks
    rw [runFlushSteps, hwrites]
    simp
  · show runFlushSteps old ((FlushStep.truncate :: chunks.map FlushStep.writeChunk).take 1) ≠ old
    simpa [runFlushSteps] using fun he => hOld he.symm
  · show runFlushSteps old ((FlushStep.truncate :: chunks.map FlushStep.writeChunk).take 1) ≠
      joinChunks chunks
    simpa [runFlushSteps] using fun he => hNew he.symm

/-- Witness for the amended C3 at a concrete flush: old snapshot "OLD", new
snapshot "NEW" written as two chunks. -/
theorem flush_truncate_then_write_witness :
    runFlushSteps "OLD" (save_state_steps ["NE", "W"]) = joinChunks ["NE", "W"] ∧
    runFlushSteps "OLD" ((save_state_steps ["NE", "W"]).take 1) ≠ "OLD" ∧
    runFlushSteps "OLD" ((save_state_steps ["NE", "W"]).take 1) ≠ joinChunks ["NE", "W"] :=
  flush_truncate_then_write "OLD" ["NE", "W"] (by decide) (by decide)

/-- One wait-then-record cycle grants no earlier than `min_interval` after
the scope's previously recorded timestamp. -/
theorem grantOnce_ge (rate_limit : ℚ) (s : RLState) :
    s.last_request_time + rate_limit ≤ (grantOnce rate_limit s).now := by
  unfold grantOnce record_request_time rate_limit_wait
  by_cases h : s.now - s.last_request_time < rate_limit
  · simp only [if_pos h]
    linarith
  · simp only [if_neg h]
    linarith [not_lt.mp h]

/-- The head of a wait sequence's grant list is no earlier than
`min_interval` after the incoming recorded timestamp. -/
theorem runWaits_head (rate_limit : ℚ) (s : RLState) (deltas : List ℚ) :
    ∀ g ∈ (runWaits rate_limit s deltas).head?, s.last_request_time + rate_limit ≤ g := by
  cases deltas with
  | nil => simp [runWaits]
  | cons δ δs =>
    intro g hg
    simp only [runWaits, List.head?_cons, Option.mem_def, Option.some.injEq] at hg
    subst hg
    exact grantOnce_ge rate_limit { s with now := s.now + δ }

/-- C8: the rate limiter (`_rate_limit_wait` followed by the timestamp
record, client.py lines 26-29 and 35-36; identically the per-worker limiter
in `process_video`) does not grant an operation until at least `min_interval`
after the scope's previously recorded timestamp and then records the grant
time as the new timestamp; consequently, along any sequence of waits on one
scope — with arbitrary rational delays between calls — consecutive grant
timestamps are never closer than `min_interval`. -/
theorem rate_limiter_spacing (rate_limit : ℚ) (s : RLState) (deltas : List ℚ) :
    (s.last_request_time + rate_limit ≤ (grantOnce rate_limit s).now ∧
      (grantOnce rate_limit s).last_request_time = (grantOnce rate_limit s).now) ∧
    List.Chain' (fun g1 g2 => g1 + rate_limit ≤ g2) (runWaits rate_limit s deltas) := by
  refine ⟨⟨grantOnce_ge rate_limit s, rfl⟩, ?_⟩
  induction deltas generalizing s with
  | nil => simp [runWaits]
  | cons δ δs ih =>
    rw [runWaits]
    apply List.chain'_cons'.mpr
    refine ⟨?_, ih _⟩
    intro g hg
    exact runWaits_head rate_limit _ δs g hg

/-- Saving a per-video file preserves the two-store invariant (the state dict
is untouched and existing sink entries survive an overwrite put). -/
theorem sinkInv_applyOp_save (env : BulkEnv) (v : VideoData) (h : SinkInv env) :
    SinkInv (applyOp env (MicroOp.saveVideo v)) := by
  intro id hid
  rcases h id hid with hkey | hfail
  · exact Or.inl (storeHasKey_storePut _ _ _ _ hkey)
  · exact Or.inr hfail

/-- Saving a video's file and then marking its id processed preserves the
two-store invariant: the freshly marked id has just been given a sink entry. -/
theorem sinkInv_step (env : BulkEnv) (vd : VideoInfo) (tr err : String) (b : Bool)
    (h : SinkInv env) :
    SinkInv (applyOp (applyOp env (MicroOp.saveVideo (mkVideoData vd tr err)))
      (MicroOp.markScraped vd.id b)) := by
  intro id hid
  simp only [applyOp, mkVideoData] at hid ⊢
  rcases List.mem_append.mp hid with hin | hone
  · rcases h id hin with hkey | hfail
    · exact Or.inl (storeHasKey_storePut _ _ _ _ hkey)
    · exact Or.inr hfail
  · have hid_eq : id = vd.id := by simpa using hone
    subst hid_eq
    exact Or.inl (storeHasKey_storePut_self _ _ _)

/-- C2: the §3 invariant between the checkpoint's processed-id set and the
ResultSink holds after every micro-step of the processing loop: if every id
in `scraped_ids` has a sink entry (or sits in `failed_ids`) initially, the
same holds after any prefix of the loop's store operations — because
`process_video` saves the per-video file (line 238) strictly before
appending the id to `scraped_ids` (line 242), the two stores never
disagree. -/
theorem scraped_ids_have_sink_entries (oracle : String → String × String)
    (jobs : List VideoInfo) (env : BulkEnv) (hInv : SinkInv env) (k : Nat) :
    SinkInv (applyOps env ((runTrace oracle env jobs).take k)) := by
  induction jobs generalizing env k with
  | nil => simpa [runTrace, applyOps] using hInv
  | cons vd rest ih =>
    by_cases hmem : vd.id ∈ env.state.scraped_ids
    · have htr : runTrace oracle env (vd :: rest) = runTrace oracle env rest := by
        simp [runTrace, process_video_ops, hmem, applyOps]
      rw [htr]
      exact ih env hInv k
    · have hops : process_video_ops oracle env vd =
          [MicroOp.saveVideo (mkVideoData vd (oracle vd.id).1 (oracle vd.id).2),
           MicroOp.markScraped vd.id (decide ((oracle vd.id).1 ≠ ""))] := by
        simp [process_video_ops, hmem]
      have htr : runTrace oracle env (vd :: rest) =
          MicroOp.saveVideo (mkVideoData vd (oracle vd.id).1 (oracle vd.id).2) ::
          MicroOp.markScraped vd.id (decide ((oracle vd.id).1 ≠ "")) ::
          runTrace oracle (applyOps env (process_video_ops oracle env vd)) rest := by
        rw [runTrace, hops]
        rfl
      rw [htr]
      rcases k with _ | _ | k
      · simpa [applyOps] using hInv
      · simpa [List.take, applyOps] using sinkInv_applyOp_save env _ hInv
      · have htk : (MicroOp.saveVideo (mkVideoData vd (oracle vd.id).1 (oracle vd.id).2) ::
              MicroOp.markScraped vd.id (decide ((oracle vd.id).1 ≠ "")) ::
              runTrace oracle (applyOps env (process_video_ops oracle env vd)) rest).take
                (k + 1 + 1) =
            MicroOp.saveVideo (mkVideoData vd (oracle vd.id).1 (oracle vd.id).2) ::
              MicroOp.markScraped vd.id (decide ((oracle vd.id).1 ≠ "")) ::
              (runTrace oracle (applyOps env (process_video_ops oracle env vd)) rest).take k := by
          simp [List.take_succ_cons]
        rw [htk]
        have henv2 : applyOps env (process_video_ops oracle env vd) =
            applyOp (applyOp env
              (MicroOp.saveVideo (mkVideoData vd (oracle vd.id).1 (oracle vd.id).2)))
              (MicroOp.markScraped vd.id (decide ((oracle vd.id).1 ≠ ""))) := by
          rw [hops]; rfl
        have hstep := sinkInv_step env vd (oracle vd.id).1 (oracle vd.id).2
          (decide ((oracle vd.id).1 ≠ "")) hInv
        have happ : applyOps env
            (MicroOp.saveVideo (mkVideoData vd (oracle vd.id).1 (oracle vd.id).2) ::
              MicroOp.markScraped vd.id (decide ((oracle vd.id).1 ≠ "")) ::
              (runTrace oracle (applyOps env (process_video_ops oracle env vd)) rest).take k) =
            applyOps (applyOps env (process_video_ops oracle env vd))
              ((runTrace oracle (applyOps env (process_video_ops oracle env vd)) rest).take k) := by
          rw [hops]
          rfl
        rw [happ]
        exact ih (applyOps env (process_video_ops oracle env vd))
          (by rw [henv2]; exact hstep) k

/-- Witness for C2: a fresh environment (empty checkpoint), one concrete job,
and the trace prefix that stops right after the file save. -/
theorem scraped_ids_have_sink_entries_witness :
    SinkInv (applyOps (initialEnv [])
      ((runTrace (fun _ => ("transcript text", "")) (initialEnv [])
        [mkJob "abc123"]).take 1)) :=
  scraped_ids_have_sink_entries (fun _ => ("transcript text", "")) [mkJob "abc123"]
    (initialEnv []) (by decide) 1

/-- C6: resumability — against a loaded checkpoint with
`processed_ids = {A, B}` and a job list `{A, B, C}`, the run invokes the
expensive transcript fetch only for `C`; jobs `A` and `B` return at the
already-scraped check (youtube_bulk_scraper.py lines 208-210) before any
fetch. -/
theorem resumability_processes_only_new (oracle : String → String × String)
    (A B C : String) (hCA : C ≠ A) (hCB : C ≠ B) :
    (runJobs oracle (initialEnv [A, B]) [mkJob A, mkJob B, mkJob C]).2 = [C] := by
  simp [runJobs, process_video, process_video_ops, applyOps, mkJob, initialEnv, hCA, hCB]

/-- Witness for C6 at concrete ids. -/
theorem resumability_processes_only_new_witness :
    (runJobs (fun _ => ("", "no_transcript")) (initialEnv ["vidA", "vidB"])
      [mkJob "vidA", mkJob "vidB", mkJob "vidC"]).2 = ["vidC"] :=
  resumability_processes_only_new (fun _ => ("", "no_transcript")) "vidA" "vidB" "vidC"
    (by decide) (by decide)

/-- `process_video` on an already-scraped id changes nothing
(youtube_bulk_scraper.py lines 208-210). -/
theorem process_video_skip (oracle : String → String × String) (env : BulkEnv)
    (vd : VideoInfo) (h : vd.id ∈ env.state.scraped_ids) :
    (process_video oracle env vd).1 = env := by
  simp [process_video, process_video_ops, h, applyOps]

/-- C7: idempotence under redelivery — uploading a job's result twice leaves
exactly one blob visible under its id-derived key (`upload_result` overwrites
`videos/<id[:2]>/<id>.json`), and running `process_video` twice on the same
job appends its id to `scraped_ids` exactly once (the second run hits the
already-scraped check and changes nothing). -/
theorem idempotent_redelivery (container : List (String × String)) (r : AzureResult)
    (oracle : String → String × String) (env : BulkEnv) (vd : VideoInfo)
    (h : vd.id ∉ env.state.scraped_ids) :
    ((upload_result (upload_result container r) r).map Prod.fst).count
        (blob_name r.video_id) = 1 ∧
    ((process_video oracle (process_video oracle env vd).1 vd).1).state.scraped_ids.count
        vd.id = 1 := by
  constructor
  · exact count_storePut_keys _ _ _
  · have h1 : ((process_video oracle env vd).1).state.scraped_ids =
        env.state.scraped_ids ++ [vd.id] := by
      simp [process_video, process_video_ops, h, applyOps, applyOp,
        List.foldl_cons, List.foldl_nil]
    have h2 : vd.id ∈ ((process_video oracle env vd).1).state.scraped_ids := by
      rw [h1]; simp
    have h3 := process_video_skip oracle (process_video oracle env vd).1 vd h2
    rw [h3, h1, List.count_append, List.count_eq_zero.mpr h]
    simp

/-- Witness for C7 at a concrete job, empty sink and empty checkpoint. -/
theorem idempotent_redelivery_witness :
    ((upload_result (upload_result [] ⟨"vid42", "payload"⟩) ⟨"vid42", "payload"⟩).map
        Prod.fst).count (blob_name "vid42") = 1 ∧
    ((process_video (fun _ => ("t", "")) ((process_video (fun _ => ("t", ""))
        (initialEnv []) (mkJob "vid42")).1) (mkJob "vid42")).1).state.scraped_ids.count
        "vid42" = 1 :=
  idempotent_redelivery [] ⟨"vid42", "payload"⟩ (fun _ => ("t", "")) (initialEnv [])
    (mkJob "vid42") (by decide)

/-- Invariant of the inner collection loop: collected ids stay pairwise
distinct, stay registered in `seen_ids`, and stay disjoint from the
checkpoint ids (which `seen_ids` contains from the start). -/
theorem addFoundVideos_invariant (scraped : List String) :
    ∀ (vids : List VideoInfo) (seen : List String) (acc : List VideoInfo),
      (acc.map VideoInfo.id).Nodup →
      (∀ v ∈ acc, v.id ∈ seen) →
      (∀ id ∈ scraped, id ∈ seen) →
      (∀ v ∈ acc, v.id ∉ scraped) →
      ((addFoundVideos seen acc vids).2.map VideoInfo.id).Nodup ∧
      (∀ v ∈ (addFoundVideos seen acc vids).2, v.id ∈ (addFoundVideos seen acc vids).1) ∧
      (∀ id ∈ scraped, id ∈ (addFoundVideos seen acc vids).1) ∧
      (∀ v ∈ (addFoundVideos seen acc vids).2, v.id ∉ scraped) := by
  intro vids
  induction vids with
  | nil => intro seen acc h1 h2 h3 h4; exact ⟨h1, h2, h3, h4⟩
  | cons v rest ih =>
    intro seen acc h1 h2 h3 h4
    simp only [addFoundVideos]
    by_cases hc : v.id ≠ "" ∧ v.id ∉ seen
    · rw [if_pos hc]
      apply ih
      · rw [List.map_append]
        refine List.Nodup.append h1 (by simp) ?_
        intro a ha hb
        obtain ⟨w, hw, hwe⟩ := List.mem_map.mp ha
        have ha_seen : a ∈ seen := hwe ▸ h2 w hw
        have : a = v.id := by simpa using hb
        exact hc.2 (this ▸ ha_seen)
      · intro w hw
        rcases List.mem_append.mp hw with hin | hone
        · exact List.mem_append_left _ (h2 w hin)
        · have : w = v := by simpa using hone
          subst this
          exact List.mem_append_right _ (by simp)
      · intro id hid
        exact List.mem_append_left _ (h3 id hid)
      · intro w hw
        rcases List.mem_append.mp hw with hin | hone
        · exact h4 w hin
        · have : w = v := by simpa using hone
          subst this
          intro habs
          exact hc.2 (h3 w.id habs)
    · rw [if_neg hc]
      exact ih seen acc h1 h2 h3 h4

/-- Invariant of the outer query loop of `collect_video_urls`. -/
theorem collectLoop_invariant (search : String → List VideoInfo)
    (scraped : List String) (target : Nat) :
    ∀ (queries completed seen : List String) (acc : List VideoInfo),
      (acc.map VideoInfo.id).Nodup →
      (∀ v ∈ acc, v.id ∈ seen) →
      (∀ id ∈ scraped, id ∈ seen) →
      (∀ v ∈ acc, v.id ∉ scraped) →
      ((collectLoop search target completed seen acc queries).map VideoInfo.id).Nodup ∧
      ∀ v ∈ collectLoop search target completed seen acc queries, v.id ∉ scraped := by
  intro queries
  induction queries with
  | nil => intro completed seen acc h1 _ _ h4; exact ⟨h1, h4⟩
  | cons q rest ih =>
    intro completed seen acc h1 h2 h3 h4
    simp only [collectLoop]
    by_cases hq : q ∈ completed
    · rw [if_pos hq]
      exact ih completed seen acc h1 h2 h3 h4
    · rw [if_neg hq]
      obtain ⟨n1, n2, n3, n4⟩ :=
        addFoundVideos_invariant scraped (search q) seen acc h1 h2 h3 h4
      by_cases ht : target ≤ (addFoundVideos seen acc (search q)).2.length
      · rw [if_pos ht]
        exact ⟨n1, n4⟩
      · rw [if_neg ht]
        exact ih (completed ++ [q]) (addFoundVideos seen acc (search q)).1
          (addFoundVideos seen acc (search q)).2 n1 n2 n3 n4

/-- C5: the local producer `collect_video_urls` returns pairwise-distinct
video ids, none of which is in the checkpoint's `processed_ids` loaded at
startup — `seen_ids` starts as `set(self.state["scraped_ids"])` (line 264)
and a video is appended only when its id is not in `seen_ids` (lines
276-278), so an id recorded as processed, or already collected in this run,
is never enqueued. -/
theorem producer_dedup (state : ScraperState) (search : String → List VideoInfo)
    (queries : List String) (target_count : Nat) :
    ((collect_video_urls state search queries target_count).map VideoInfo.id).Nodup ∧
    ∀ v ∈ collect_video_urls state search queries target_count,
      v.id ∉ state.scraped_ids := by
  have main := collectLoop_invariant search state.scraped_ids target_count queries
    state.queries_completed state.scraped_ids [] (by simp) (by simp)
    (fun id h => h) (by simp)
  unfold collect_video_urls
  constructor
  · rw [List.map_take]
    exact List.Nodup.sublist (List.take_sublist _ _) main.1
  · intro v hv
    exact main.2 v (List.take_subset _ _ hv)

/-- The inner send loop of `queue_jobs.main` preserves the producer
invariant. -/
theorem sendVideosLoop_inv (count min_views : Nat) (query : String) :
    ∀ (vids : List QVideo) (s : QState), QInv count min_views s →
      QInv count min_views (sendVideosLoop count min_views query s vids) := by
  intro vids
  induction vids with
  | nil => intro s h; exact h
  | cons v rest ih =>
    intro s h
    simp only [sendVideosLoop]
    by_cases hfull : count ≤ s.queued
    · rw [if_pos hfull]
      exact h
    · rw [if_neg hfull]
      cases hv : v.video_id with
      | none => exact ih s h
      | some vid =>
        dsimp only
        by_cases hc : vid ≠ "" ∧ vid ∉ s.seen_ids ∧ min_views ≤ v.views
        · rw [if_pos hc]
          apply ih
          obtain ⟨e1, e2, e3, e4⟩ := h
          refine ⟨by simp [e1], ?_, ?_, ?_⟩
          · show s.queued + 1 ≤ count
            omega
          · rw [List.map_append]
            refine List.Nodup.append e3 (by simp) ?_
            intro a ha hb
            obtain ⟨m, hm, hme⟩ := List.mem_map.mp ha
            have ha_seen : a ∈ s.seen_ids := hme ▸ (e4 m hm).1
            have hav : a = vid := by simpa using hb
            exact hc.2.1 (hav ▸ ha_seen)
          · intro m hm
            rcases List.mem_append.mp hm with hin | hone
            · obtain ⟨m1, m2, m3⟩ := e4 m hin
              exact ⟨List.mem_append_left _ m1, m2, m3⟩
            · have hms : m = ⟨vid, query, v.views⟩ := by simpa using hone
              subst hms
              exact ⟨List.mem_append_right _ (by simp), hc.1, hc.2.2⟩
        · rw [if_neg hc]
          exact ih s h

/-- The outer query loop of `queue_jobs.main` preserves the producer
invariant. -/
theorem queueJobsLoop_inv (count min_views : Nat) (search : String → List QVideo) :
    ∀ (queries : List String) (s : QState), QInv count min_views s →
      QInv count min_views (queueJobsLoop count min_views search s queries) := by
  intro queries
  induction queries with
  | nil => intro s h; exact h
  | cons q rest ih =>
    intro s h
    simp only [queueJobsLoop]
    by_cases hfull : count ≤ s.queued
    · rw [if_pos hfull]
      exact h
    · rw [if_neg hfull]
      exact ih _ (sendVideosLoop_inv count min_views q (search q) s h)

/-- C10: in one run of the Azure job producer, every sent message carries a
non-empty video id distinct from every previously sent id, every sent video
passed the min-views filter, and the number of sent messages never exceeds
the requested target count. -/
theorem queue_jobs_invariants (count min_views : Nat) (search : String → List QVideo)
    (all_queries : List String) :
    (queueJobsMain count min_views search all_queries).sent.length ≤ count ∧
    ((queueJobsMain count min_views search all_queries).sent.map SentMsg.video_id).Nodup ∧
    ∀ m ∈ (queueJobsMain count min_views search all_queries).sent,
      m.video_id ≠ "" ∧ min_views ≤ m.views := by
  obtain ⟨e1, e2, e3, e4⟩ := queueJobsLoop_inv count min_views search all_queries
    ⟨[], 0, []⟩ ⟨rfl, Nat.zero_le _, by simp, by simp⟩
  exact ⟨e1 ▸ e2, e3, fun m hm => ⟨(e4 m hm).2.1, (e4 m hm).2.2⟩⟩
